import Mathlib

/-!
Shallow embedding of the text-to-record extraction pipeline of the
scrape-oscars repository (files `enhanced_parsing.py` and
`oscar_categories_historical.py`), together with theorems settling the
frozen claims about its specification.

Strings are modelled as Lean `String`s; all operations are defined over
the underlying character lists so that every definition is executable by
kernel reduction.  Python semantics modelled: `str.strip`, `re.sub` of
whitespace runs, `str.lower`/`str.upper` (ASCII range, all data in the
program is ASCII apart from the em-dash separator), `str.split`,
substring containment (`in`), `str.replace`, `str.startswith`, and the
few fixed regular expressions the source uses.
-/

/-- Python whitespace characters (the ASCII ones; all inputs handled by
the program are ASCII plus the em-dash). -/
def isPySpace (c : Char) : Bool :=
  c = ' ' || c = Char.ofNat 9 || c = Char.ofNat 10 || c = Char.ofNat 13 ||
  c = Char.ofNat 11 || c = Char.ofNat 12

def isUpperAZ (c : Char) : Bool :=
  'A' ≤ c && c ≤ 'Z'

def isLowerAZ (c : Char) : Bool :=
  'a' ≤ c && c ≤ 'z'

/-- ASCII lower-casing of a character, as Python `str.lower` acts on ASCII. -/
def lowerChar (c : Char) : Char :=
  if isUpperAZ c then Char.ofNat (c.toNat + 32) else c

/-- ASCII upper-casing of a character, as Python `str.upper` acts on ASCII. -/
def upperChar (c : Char) : Char :=
  if isLowerAZ c then Char.ofNat (c.toNat - 32) else c

def lowerL (l : List Char) : List Char := l.map lowerChar

def upperL (l : List Char) : List Char := l.map upperChar

/-- `listStarts pat l` holds when `pat` is an initial segment of `l`
(Python `str.startswith`). -/
def listStarts : List Char → List Char → Bool
  | [], _ => true
  | _ :: _, [] => false
  | p :: ps, c :: cs => if p = c then listStarts ps cs else false

/-- Substring containment on character lists (Python `pat in s`). -/
def hasSubL (pat : List Char) : List Char → Bool
  | [] => listStarts pat []
  | c :: cs => if listStarts pat (c :: cs) then true else hasSubL pat cs

/-- Python `str.strip()`: drop leading and trailing whitespace. -/
def pyStripL (l : List Char) : List Char :=
  ((l.dropWhile isPySpace).reverse.dropWhile isPySpace).reverse

/-- Python `str.strip(chars)`: drop leading and trailing characters
belonging to the given set. -/
def pyStripSetL (set : List Char) (l : List Char) : List Char :=
  ((l.dropWhile (fun c => set.contains c)).reverse.dropWhile
    (fun c => set.contains c)).reverse

/-- Replace each maximal whitespace run by a single space
(`re.sub(r"\s+", " ", ...)`).  The boolean records whether the previous
character was part of a whitespace run. -/
def collapseGo : Bool → List Char → List Char
  | _, [] => []
  | inWs, c :: rest =>
    if isPySpace c then
      if inWs then collapseGo true rest else ' ' :: collapseGo true rest
    else c :: collapseGo false rest

/-- `norm` from `enhanced_parsing.py`: strip, then collapse internal
whitespace runs to single spaces. -/
def norm (s : String) : String :=
  ⟨collapseGo false (pyStripL s.data)⟩

/-- `lower_norm` from `enhanced_parsing.py`. -/
def lowerNorm (s : String) : String :=
  ⟨lowerL (norm s).data⟩

def pyLower (s : String) : String := ⟨lowerL s.data⟩

def pyUpper (s : String) : String := ⟨upperL s.data⟩

def pyStrip (s : String) : String := ⟨pyStripL s.data⟩

def hasSub (pat s : String) : Bool := hasSubL pat.data s.data

def startsWithS (pat s : String) : Bool := listStarts pat.data s.data

/-- Python `str.split()` (split on whitespace runs, dropping empty
words): the accumulator holds the current word reversed. -/
def pySplitGo (cur : List Char) : List Char → List (List Char)
  | [] => if cur.isEmpty then [] else [cur.reverse]
  | c :: rest =>
    if isPySpace c then
      if cur.isEmpty then pySplitGo [] rest else cur.reverse :: pySplitGo [] rest
    else pySplitGo (c :: cur) rest

def pySplitWs (l : List Char) : List (List Char) := pySplitGo [] l

/-- Python `str.replace(pat, "")` for a non-empty pattern: delete every
(left-to-right, non-overlapping) occurrence.  The fuel is the length of
the scanned list, which suffices because every step consumes at least
one character. -/
def replaceDropF : Nat → List Char → List Char → List Char
  | 0, _, l => l
  | _ + 1, _, [] => []
  | fuel + 1, pat, c :: cs =>
    if pat ≠ [] && listStarts pat (c :: cs) then
      replaceDropF fuel pat ((c :: cs).drop pat.length)
    else c :: replaceDropF fuel pat cs

def pyRemoveAll (pat : String) (s : String) : String :=
  ⟨replaceDropF s.data.length pat.data s.data⟩

/-! ## Historical category taxonomy (`oscar_categories_historical.py`) -/

/-- The snapshot lists of `CATEGORY_HISTORY`, keyed by era start year. -/
def categorySnapshot : Int → List String
  | 1929 => ["Outstanding Picture", "Best Actor", "Best Actress", "Best Director",
      "Best Writing", "Best Cinematography", "Best Art Direction",
      "Best Engineering Effects"]
  | 1930 => ["Outstanding Picture", "Best Actor", "Best Actress", "Best Director",
      "Best Writing", "Best Cinematography", "Best Art Direction",
      "Best Sound Recording"]
  | 1934 => ["Outstanding Production", "Best Actor", "Best Actress", "Best Director",
      "Best Writing (Adaptation)", "Best Writing (Original Story)",
      "Best Cinematography", "Best Art Direction", "Best Sound Recording",
      "Best Assistant Director", "Best Film Editing", "Best Music (Scoring)",
      "Best Music (Song)"]
  | 1940 => ["Outstanding Production", "Best Actor", "Best Actress",
      "Best Supporting Actor", "Best Supporting Actress", "Best Director",
      "Best Writing (Original Screenplay)", "Best Writing (Screenplay)",
      "Best Cinematography (Black and White)", "Best Cinematography (Color)",
      "Best Art Direction (Black and White)", "Best Art Direction (Color)",
      "Best Sound Recording", "Best Film Editing", "Best Music (Original Score)",
      "Best Music (Original Song)", "Best Special Effects",
      "Best Documentary (Short Subject)", "Best Documentary (Feature)"]
  | 1950 => ["Best Picture", "Best Actor", "Best Actress", "Best Supporting Actor",
      "Best Supporting Actress", "Best Director",
      "Best Writing (Story and Screenplay)", "Best Writing (Screenplay)",
      "Best Cinematography (Black and White)", "Best Cinematography (Color)",
      "Best Art Direction (Black and White)", "Best Art Direction (Color)",
      "Best Costume Design (Black and White)", "Best Costume Design (Color)",
      "Best Sound Recording", "Best Film Editing",
      "Best Music (Scoring of a Dramatic or Comedy Picture)",
      "Best Music (Scoring of a Musical Picture)", "Best Music (Original Song)",
      "Best Special Effects", "Best Documentary (Short Subject)",
      "Best Documentary (Feature)", "Best Foreign Language Film"]
  | 1970 => ["Best Picture", "Best Actor in a Leading Role",
      "Best Actress in a Leading Role", "Best Actor in a Supporting Role",
      "Best Actress in a Supporting Role", "Best Director",
      "Best Writing (Original Screenplay)",
      "Best Writing (Screenplay Based on Material from Another Medium)",
      "Best Cinematography", "Best Art Direction", "Best Costume Design",
      "Best Sound", "Best Film Editing", "Best Music (Original Dramatic Score)",
      "Best Music (Original Song Score)", "Best Music (Original Song)",
      "Best Visual Effects", "Best Documentary (Short Subject)",
      "Best Documentary (Feature)", "Best Foreign Language Film",
      "Best Short Film (Live Action)", "Best Short Film (Animated)"]
  | 1990 => ["Best Picture", "Best Actor in a Leading Role",
      "Best Actress in a Leading Role", "Best Actor in a Supporting Role",
      "Best Actress in a Supporting Role", "Best Director",
      "Best Writing (Original Screenplay)",
      "Best Writing (Screenplay Based on Material Previously Produced or Published)",
      "Best Cinematography", "Best Art Direction", "Best Costume Design",
      "Best Sound", "Best Sound Effects Editing", "Best Film Editing",
      "Best Music (Original Score)", "Best Music (Original Song)", "Best Makeup",
      "Best Visual Effects", "Best Documentary (Short Subject)",
      "Best Documentary (Feature)", "Best Foreign Language Film",
      "Best Short Film (Live Action)", "Best Short Film (Animated)"]
  | 2000 => ["Best Picture", "Best Actor in a Leading Role",
      "Best Actress in a Leading Role", "Best Actor in a Supporting Role",
      "Best Actress in a Supporting Role", "Best Director",
      "Best Writing (Original Screenplay)", "Best Writing (Adapted Screenplay)",
      "Best Cinematography", "Best Art Direction", "Best Costume Design",
      "Best Sound Mixing", "Best Sound Editing", "Best Film Editing",
      "Best Music (Original Score)", "Best Music (Original Song)", "Best Makeup",
      "Best Visual Effects", "Best Documentary (Short Subject)",
      "Best Documentary (Feature)", "Best Foreign Language Film",
      "Best Short Film (Live Action)", "Best Short Film (Animated)",
      "Best Animated Feature Film"]
  | 2010 => ["Best Picture", "Best Actor in a Leading Role",
      "Best Actress in a Leading Role", "Best Actor in a Supporting Role",
      "Best Actress in a Supporting Role", "Best Director",
      "Best Writing (Original Screenplay)", "Best Writing (Adapted Screenplay)",
      "Best Cinematography", "Best Production Design", "Best Costume Design",
      "Best Sound Mixing", "Best Sound Editing", "Best Film Editing",
      "Best Music (Original Score)", "Best Music (Original Song)",
      "Best Makeup and Hairstyling", "Best Visual Effects",
      "Best Documentary (Short Subject)", "Best Documentary (Feature)",
      "Best International Feature Film", "Best Short Film (Live Action)",
      "Best Short Film (Animated)", "Best Animated Feature Film"]
  | 2020 => ["Best Picture", "Best Actor in a Leading Role",
      "Best Actress in a Leading Role", "Best Actor in a Supporting Role",
      "Best Actress in a Supporting Role", "Best Director",
      "Best Writing (Original Screenplay)", "Best Writing (Adapted Screenplay)",
      "Best Cinematography", "Best Production Design", "Best Costume Design",
      "Best Sound", "Best Film Editing", "Best Music (Original Score)",
      "Best Music (Original Song)", "Best Makeup and Hairstyling",
      "Best Visual Effects", "Best Documentary (Short Subject)",
      "Best Documentary (Feature)", "Best International Feature Film",
      "Best Short Film (Live Action)", "Best Short Film (Animated)",
      "Best Animated Feature Film"]
  | _ => []

/-- The sorted era start years of `CATEGORY_HISTORY`. -/
def availableYears : List Int :=
  [1929, 1930, 1934, 1940, 1950, 1970, 1990, 2000, 2010, 2020]

/-- The selection loop of `get_categories_for_year`: walk the sorted
years, remembering the last one `≤ year`, stopping at the first larger
one (Python `break`). -/
def closestYearGo : List Int → Int → Option Int → Option Int
  | [], _, acc => acc
  | y :: ys, year, acc => if y ≤ year then closestYearGo ys year (some y) else acc

/-- `get_categories_for_year` from `oscar_categories_historical.py`. -/
def getCategoriesForYear (year : Int) : List String :=
  categorySnapshot ((closestYearGo availableYears year none).getD 1929)

/-- `COMPREHENSIVE_CATEGORIES` from `oscar_categories_historical.py`,
as an association list in source order (the dict has no duplicate keys). -/
def comprehensiveCategories : List (String × String) :=
  [("Outstanding Picture", "Best Picture"),
   ("Outstanding Production", "Best Picture"),
   ("Best Picture", "Best Picture"),
   ("Best Actor", "Best Actor in a Leading Role"),
   ("Best Actor in a Leading Role", "Best Actor in a Leading Role"),
   ("Best Actress", "Best Actress in a Leading Role"),
   ("Best Actress in a Leading Role", "Best Actress in a Leading Role"),
   ("Best Supporting Actor", "Best Actor in a Supporting Role"),
   ("Best Actor in a Supporting Role", "Best Actor in a Supporting Role"),
   ("Best Supporting Actress", "Best Actress in a Supporting Role"),
   ("Best Actress in a Supporting Role", "Best Actress in a Supporting Role"),
   ("Best Director", "Best Director"),
   ("Directing", "Best Director"),
   ("Best Writing", "Best Writing (Original Screenplay)"),
   ("Best Writing (Original Story)", "Best Writing (Original Screenplay)"),
   ("Best Writing (Adaptation)", "Best Writing (Adapted Screenplay)"),
   ("Best Writing (Story and Screenplay)", "Best Writing (Original Screenplay)"),
   ("Best Writing (Screenplay)", "Best Writing (Adapted Screenplay)"),
   ("Best Writing (Screenplay Based on Material from Another Medium)",
      "Best Writing (Adapted Screenplay)"),
   ("Best Writing (Screenplay Based on Material Previously Produced or Published)",
      "Best Writing (Adapted Screenplay)"),
   ("Best Writing (Original Screenplay)", "Best Writing (Original Screenplay)"),
   ("Best Writing (Adapted Screenplay)", "Best Writing (Adapted Screenplay)"),
   ("Best Cinematography", "Best Cinematography"),
   ("Best Cinematography (Black and White)", "Best Cinematography"),
   ("Best Cinematography (Color)", "Best Cinematography"),
   ("Best Art Direction", "Best Production Design"),
   ("Best Art Direction (Black and White)", "Best Production Design"),
   ("Best Art Direction (Color)", "Best Production Design"),
   ("Best Production Design", "Best Production Design"),
   ("Best Costume Design", "Best Costume Design"),
   ("Best Costume Design (Black and White)", "Best Costume Design"),
   ("Best Costume Design (Color)", "Best Costume Design"),
   ("Best Sound Recording", "Best Sound"),
   ("Best Sound", "Best Sound"),
   ("Best Sound Mixing", "Best Sound"),
   ("Best Sound Editing", "Best Sound"),
   ("Best Film Editing", "Best Film Editing"),
   ("Best Music (Scoring)", "Best Music (Original Score)"),
   ("Best Music (Original Score)", "Best Music (Original Score)"),
   ("Best Music (Scoring of a Dramatic or Comedy Picture)",
      "Best Music (Original Score)"),
   ("Best Music (Original Dramatic Score)", "Best Music (Original Score)"),
   ("Best Music (Original Song Score)", "Best Music (Original Score)"),
   ("Best Music (Scoring of a Musical Picture)", "Best Music (Original Score)"),
   ("Best Music (Original Song)", "Best Music (Original Song)"),
   ("Best Music (Song)", "Best Music (Original Song)"),
   ("Best Engineering Effects", "Best Visual Effects"),
   ("Best Special Effects", "Best Visual Effects"),
   ("Best Visual Effects", "Best Visual Effects"),
   ("Best Makeup", "Best Makeup and Hairstyling"),
   ("Best Makeup and Hairstyling", "Best Makeup and Hairstyling"),
   ("Best Documentary (Short Subject)", "Best Documentary (Short Subject)"),
   ("Best Documentary (Feature)", "Best Documentary (Feature)"),
   ("Best Short Film (Live Action)", "Best Short Film (Live Action)"),
   ("Best Short Film (Animated)", "Best Short Film (Animated)"),
   ("Best Foreign Language Film", "Best International Feature Film"),
   ("Best International Feature Film", "Best International Feature Film"),
   ("Best Animated Feature Film", "Best Animated Feature Film"),
   ("Best Assistant Director", "Best Assistant Director")]

/-- First-match association-list lookup (Python `dict.get` on a dict
without duplicate keys). -/
def lookupTable : List (String × String) → String → Option String
  | [], _ => none
  | (k, v) :: rest, c => if c = k then some v else lookupTable rest c

/-- `normalize_category` from `oscar_categories_historical.py`; the
`year` argument is accepted and ignored, as in the source. -/
def normalizeCategory (categoryName : String) (_year : Option Int) : String :=
  (lookupTable comprehensiveCategories categoryName).getD categoryName

/-! ## Classifier heuristics (`enhanced_parsing.py`) -/

/-- `COMMON_ACTOR_NAMES` (a Python set; duplicates irrelevant for
membership). -/
def commonActorNames : List String :=
  ["mary pickford", "warner baxter", "george arliss", "norma shearer",
   "fredric march", "helen hayes", "wallace beery", "charles laughton",
   "katharine hepburn", "leslie howard", "paul muni", "marie dressler",
   "lionel barrymore", "adolphe menjou", "ann harding", "irene dunne",
   "jackie cooper", "marlene dietrich", "richard dix",
   "george bancroft", "bessie love", "betty compson", "chester morris",
   "corinne griffith", "jeanne eagels", "lewis stone", "ruth chatterton"]

/-- `COMMON_FILM_TITLES`. -/
def commonFilmTitles : List String :=
  ["sunrise", "wings", "the jazz singer", "the circus", "7th heaven",
   "the crowd", "the racket", "chang", "the broadway melody",
   "the bridge of san luis rey", "the patriot",
   "white shadows in the south seas", "all quiet on the western front",
   "cimarron", "grand hotel"]

/-- The bare category nouns excluded by both heuristics. -/
def categoryNouns : List String :=
  ["actor", "actress", "director", "cinematography", "direction",
   "writing", "effects", "engineering", "art direction"]

/-- `is_early_years_format`. -/
def isEarlyYearsFormat (year : Int) : Bool :=
  decide (1929 ≤ year) && decide (year ≤ 1934)

/-- `is_likely_actor_name`. -/
def isLikelyActorName (text : String) : Bool :=
  let textLower := lowerNorm text
  if commonActorNames.contains textLower then true
  else if startsWithS "best " textLower || startsWithS "outstanding " textLower then
    false
  else if categoryNouns.contains textLower then false
  else
    let words := pySplitWs text.data
    if words.length = 2 && words.all (fun w => isUpperAZ (w.headD ' ')) then true
    else if words.length = 1 && isUpperAZ (text.data.headD ' ') then true
    else false

/-- `is_likely_film_title`. -/
def isLikelyFilmTitle (text : String) : Bool :=
  let textLower := lowerNorm text
  if startsWithS "best " textLower || startsWithS "outstanding " textLower then
    false
  else if categoryNouns.contains textLower then false
  else if commonFilmTitles.contains textLower then true
  else
    let words := pySplitWs text.data
    if words.length = 1 && isUpperAZ (text.data.headD ' ') then true
    else if 2 ≤ words.length && isUpperAZ ((words.headD []).headD ' ') then true
    else false

/-- The UI-chrome fragments excluded by the classifier. -/
def excludeFragments : List String :=
  ["view by category", "view by film", "select a category",
   "highlights", "memorable moments", "share", "winner", "nominees", "nominee"]

/-- The broader category-indicator keyword set of the classifier. -/
def categoryIndicators : List String :=
  ["actor", "actress", "director", "directing", "writing", "cinematography",
   "art direction", "production design", "sound", "music", "editing",
   "effects", "engineering", "costume", "makeup", "documentary", "short",
   "animated", "foreign", "international", "picture", "production"]

/-- `cat.replace("Best ", "").replace("Outstanding ", "")`. -/
def simplifiedCat (cat : String) : String :=
  pyRemoveAll "Outstanding " (pyRemoveAll "Best " cat)

/-- After at least one whitespace character has been consumed: skip
further whitespace and require an uppercase letter. -/
def wsSkipThenUpper : List Char → Bool
  | [] => false
  | c :: cs => if isPySpace c then wsSkipThenUpper cs else isUpperAZ c

/-- The regular expression fragment `\s+[A-Z]`: at least one whitespace
character, then (after the run) an uppercase letter. -/
def wsThenUpper : List Char → Bool
  | [] => false
  | c :: cs => if isPySpace c then wsSkipThenUpper cs else false

def matchBestOutstandingUpper (l : List Char) : Bool :=
  (listStarts "Best".data l && wsThenUpper (l.drop 4)) ||
  (listStarts "Outstanding".data l && wsThenUpper (l.drop 11))

/-- The character class `[a-zA-Z\s\(\),-]`. -/
def isShapeChar (c : Char) : Bool :=
  isLowerAZ c || isUpperAZ c || isPySpace c || c = '(' || c = ')' ||
  c = ',' || c = '-'

/-- The regular expression `^[A-Z][a-zA-Z\s\(\),-]+$` matched against
the whole string: an uppercase letter followed by one or more characters
of the class. -/
def matchCapShape (l : List Char) : Bool :=
  match l with
  | [] => false
  | c :: cs => isUpperAZ c && !cs.isEmpty && cs.all isShapeChar

/-- `enhanced_looks_like_category_heading`. -/
def enhancedLooksLikeCategoryHeading (s : String) (year : Int) : Bool :=
  let ls := lowerNorm s
  let sClean := pyStrip s
  if sClean.data.length < 4 || 70 < sClean.data.length then false
  else if excludeFragments.any (fun x => hasSub x ls) then false
  else if isLikelyActorName sClean || isLikelyFilmTitle sClean then false
  else
    let validCategories := getCategoriesForYear year
    if validCategories.contains sClean then true
    else if validCategories.any (fun cat =>
        sClean = simplifiedCat cat ||
        (hasSub "directing" (pyLower (simplifiedCat cat)) && hasSub "directing" ls))
      then true
    else if matchBestOutstandingUpper sClean.data then true
    else if categoryIndicators.any (fun ind => hasSub ind ls) &&
        matchCapShape sClean.data && 4 ≤ sClean.data.length then true
    else false

/-! ## Line extractor, entry consumer, film extractor, driver
(`enhanced_parsing.py`) -/

/-- The MODERN-era stop condition of the line extractor: the normalized
line contains both `0-9` and `ALL`, or equals `0-9`. -/
def wnStop (sc : String) : Bool :=
  (hasSub "0-9" sc && hasSub "ALL" sc) || sc == "0-9"

/-- Start-of-section test: the upper-cased normalized line starts with
`WINNERS & NOMINEES`. -/
def wnStart (sc : String) : Bool :=
  startsWithS "WINNERS & NOMINEES" (pyUpper sc)

/-- The scanning loop of `enhanced_extract_wn_lines`; the boolean is the
`in_section` flag.  Returning `[]` for the remaining lines models the
`break` statements. -/
def extractWnGo (year : Int) : Bool → List String → List String
  | _, [] => []
  | false, s :: rest =>
    if wnStart (norm s) then extractWnGo year true rest
    else extractWnGo year false rest
  | true, s :: rest =>
    let sc := norm s
    let up := pyUpper sc
    if isEarlyYearsFormat year then
      if wnStop sc then []
      else if startsWithS "VIEW BY FILM" up || startsWithS "VIEW BY CATEGORY" up then
        extractWnGo year true rest
      else if startsWithS "ALPHABETICAL" up || startsWithS "INDEX" up then []
      else sc :: extractWnGo year true rest
    else
      if wnStop sc then []
      else sc :: extractWnGo year true rest

/-- `enhanced_extract_wn_lines`, taking the already-materialized list of
stripped page strings (`soup.stripped_strings` is the external input). -/
def enhancedExtractWnLines (lines : List String) (year : Int) : List String :=
  extractWnGo year false lines

/-- The `while` loop of `enhanced_consume_entry`.  The first argument is
fuel; the loop advances the index by at least one per step, so fuel
`lines.length` suffices for every call issued by `enhanced_consume_entry`
(the scan starts at `start_idx + 1 ≥ 1`). -/
def consumeGo (lines : List String) (year : Int) (maxLines : Nat) :
    Nat → List String → Nat → List String × Nat
  | 0, parts, i => (parts, i)
  | fuel + 1, parts, i =>
    if i < lines.length then
      let t := norm (lines.getD i "")
      let low := pyLower t
      if t = "" then consumeGo lines year maxLines fuel parts (i + 1)
      else if low = "winner" || low = "nominee" || low = "nominees" then
        if parts.isEmpty then consumeGo lines year maxLines fuel parts (i + 1)
        else (parts, i)
      else if enhancedLooksLikeCategoryHeading t year && !parts.isEmpty then
        (parts, i)
      else
        let parts2 := parts ++ [t]
        if maxLines ≤ parts2.length then (parts2, i)
        else consumeGo lines year maxLines fuel parts2 (i + 1)
    else (parts, i)

/-- `" — ".join(entry_parts)` over the underlying characters. -/
def joinEmDash : List String → List Char
  | [] => []
  | [p] => p.data
  | p :: q :: rest => p.data ++ (' ' :: '—' :: ' ' :: joinEmDash (q :: rest))

/-- `" — ".join(entry_parts).strip(" —")`. -/
def joinEntry (parts : List String) : String :=
  ⟨pyStripSetL [' ', '—'] (joinEmDash parts)⟩

/-- `enhanced_consume_entry`. -/
def enhancedConsumeEntry (lines : List String) (startIdx : Nat) (year : Int)
    (maxLines : Nat) : String × Nat :=
  let r := consumeGo lines year maxLines lines.length [] (startIdx + 1)
  (joinEntry r.1, r.2)

/-- Instrumented variant of the `enhanced_consume_entry` loop that
records the indices of the lines appended to the entry instead of their
text.  Its branching mirrors `consumeGo` exactly (the conditions only
inspect emptiness and length of the accumulator, which the index list
preserves); the agreement is proved below. -/
def consumeIdxGo (lines : List String) (year : Int) (maxLines : Nat) :
    Nat → List Nat → Nat → List Nat × Nat
  | 0, idxs, i => (idxs, i)
  | fuel + 1, idxs, i =>
    if i < lines.length then
      let t := norm (lines.getD i "")
      let low := pyLower t
      if t = "" then consumeIdxGo lines year maxLines fuel idxs (i + 1)
      else if low = "winner" || low = "nominee" || low = "nominees" then
        if idxs.isEmpty then consumeIdxGo lines year maxLines fuel idxs (i + 1)
        else (idxs, i)
      else if enhancedLooksLikeCategoryHeading t year && !idxs.isEmpty then
        (idxs, i)
      else
        let idxs2 := idxs ++ [i]
        if maxLines ≤ idxs2.length then (idxs2, i)
        else consumeIdxGo lines year maxLines fuel idxs2 (i + 1)
    else (idxs, i)

/-- `use_right_side_for_film`. -/
def useRightSideForFilm (categoryCanon : String) : Bool :=
  let cl := pyLower categoryCanon
  if hasSub "original song" cl then true
  else if hasSub "actor" cl || hasSub "actress" cl then true
  else false

def isDashChar (c : Char) : Bool :=
  c = '—' || c = '–' || c = '-'

/-- `re.split(r"\s[—–-]\s", s)`: scan left to right; at each position
where a whitespace, a dash, and a whitespace follow, cut.  The
accumulator holds the current part reversed. -/
def splitDashGo (acc : List Char) : List Char → List (List Char)
  | a :: b :: c :: rest =>
    if isPySpace a && isDashChar b && isPySpace c then
      acc.reverse :: splitDashGo [] rest
    else splitDashGo (a :: acc) (b :: c :: rest)
  | l => [acc.reverse ++ l]

def splitDashes (s : String) : List String :=
  (splitDashGo [] s.data).map (fun l => ⟨l⟩)

/-- The cleanup block shared by both film extractors: strip surrounding
space/quote characters, remove a leading `from` + whitespace
(case-insensitive), truncate at the first semicolon (the strings reaching
this point are `norm`alized, hence newline-free, so `re.sub(r';\s*.*$', '')`
truncates at the first semicolon), and strip whitespace. -/
def cleanupFilm (film : String) : String :=
  let f1 := pyStripSetL [' ', Char.ofNat 39, Char.ofNat 34] film.data
  let f2 :=
    match f1 with
    | f :: r :: o :: m :: rest =>
      if lowerChar f = 'f' && lowerChar r = 'r' && lowerChar o = 'o' &&
          lowerChar m = 'm' && isPySpace (rest.headD 'x') && !rest.isEmpty then
        rest.dropWhile isPySpace
      else f1
    | _ => f1
  let f3 := f2.takeWhile (fun c => c ≠ ';')
  ⟨pyStripL f3⟩

/-- `enhanced_early_years_film_extraction`. -/
def enhancedEarlyYearsFilmExtraction (categoryCanon : String) (entry : String)
    (parts : List String) : String :=
  let s := norm entry
  let cl := pyLower categoryCanon
  let film :=
    if parts.length = 1 then parts.getD 0 ""
    else if 2 ≤ parts.length then
      if hasSub "actor" cl || hasSub "actress" cl then (parts.getLast? ).getD ""
      else parts.getD 0 ""
    else s
  cleanupFilm film

/-- `enhanced_extract_film_only`. -/
def enhancedExtractFilmOnly (categoryCanon : String) (entry : String)
    (year : Int) : String :=
  let s := norm entry
  let parts := splitDashes s
  let cl := pyLower categoryCanon
  if isEarlyYearsFormat year then
    enhancedEarlyYearsFilmExtraction categoryCanon entry parts
  else
    let film :=
      if useRightSideForFilm categoryCanon then
        if hasSub "original song" cl && 2 ≤ parts.length then
          (if 2 ≤ parts.length then parts.getD 1 "" else (parts.getLast? ).getD "")
        else (if !parts.isEmpty then (parts.getLast? ).getD "" else s)
      else (if !parts.isEmpty then parts.getD 0 "" else s)
    cleanupFilm film

/-- A parsed award record, with the field names of the dictionaries
built by `enhanced_parse_winners_nominees`. -/
structure Record where
  ceremony_year : Int
  category : String
  film : String
  is_winner : Bool
  source_url : String
deriving DecidableEq

/-- The `(ceremony_year, category, film)` de-duplication key. -/
def tripleKey (r : Record) : Int × String × String :=
  (r.ceremony_year, r.category, r.film)

/-- The backward category lookback of the driver:
`for j in range(i - 1, max(-1, i - 15), -1)` visits the indices
`i - 1 - d` for `d < min i 14`, and the loop stops at the first line
classifying as a heading. -/
def lookbackCategory (lines : List String) (i : Nat) (year : Int) :
    Option String :=
  ((List.range (min i 14)).map (fun d => norm (lines.getD (i - 1 - d) ""))).find?
    (fun cand => enhancedLooksLikeCategoryHeading cand year)

/-- The first taxonomy entry of the year whose simplified form equals the
raw heading (else the raw heading itself): the
`for valid_cat in valid_categories` loop of the driver. -/
def findFullCategory : List String → String → String
  | [], raw => raw
  | c :: cs, raw => if raw = simplifiedCat c then c else findFullCategory cs raw

/-- The category-resolution block repeated in the winner and nominee
branches of the driver. -/
def resolveCategory (categoryRaw : String) (year : Int) : String :=
  normalizeCategory (findFullCategory (getCategoriesForYear year) categoryRaw)
    (some year)

/-- The forward scan of `enhanced_parse_winners_nominees` (the `rows`
list before de-duplication).  The first `Nat` argument is fuel: every
iteration advances the index by at least one (`enhanced_consume_entry`
returns an index `≥ start_idx + 1`), so fuel `lines.length` suffices. -/
def parseGo (lines : List String) (year : Int) (url : String) :
    Nat → Option String → Nat → List Record
  | 0, _, _ => []
  | fuel + 1, cat, i =>
    if i < lines.length then
      let t := norm (lines.getD i "")
      let low := pyLower t
      if enhancedLooksLikeCategoryHeading t year then
        parseGo lines year url fuel (some t) (i + 1)
      else if low = "winner" then
        let cat2 := match cat with
          | some c => some c
          | none => lookbackCategory lines i year
        let category := resolveCategory (cat2.getD "Unknown Category") year
        let r := enhancedConsumeEntry lines i year 2
        let rows :=
          if r.1 ≠ "" then
            [Record.mk year category (enhancedExtractFilmOnly category r.1 year)
              true url]
          else []
        rows ++ parseGo lines year url fuel cat2 r.2
      else if low = "nominee" || low = "nominees" then
        let cat2 := match cat with
          | some c => some c
          | none => lookbackCategory lines i year
        let category := resolveCategory (cat2.getD "Unknown Category") year
        let r := enhancedConsumeEntry lines i year 2
        let rows :=
          if r.1 ≠ "" then
            [Record.mk year category (enhancedExtractFilmOnly category r.1 year)
              false url]
          else []
        rows ++ parseGo lines year url fuel cat2 r.2
      else parseGo lines year url fuel cat (i + 1)
    else []

/-- The scan rows of `enhanced_parse_winners_nominees` before the final
de-duplication. -/
def parseRows (lines : List String) (year : Int) (url : String) : List Record :=
  parseGo lines year url lines.length none 0

/-- Association-list lookup for the de-duplication dict. -/
def dlookup : List ((Int × String × String) × Record) → (Int × String × String) →
    Option Record
  | [], _ => none
  | (k, v) :: rest, key => if key = k then some v else dlookup rest key

/-- In-place update of an existing key (Python dict assignment keeps the
key's insertion position). -/
def dsetIn : List ((Int × String × String) × Record) → (Int × String × String) →
    Record → List ((Int × String × String) × Record)
  | [], key, r => [(key, r)]
  | (k, v) :: rest, key, r =>
    if key = k then (k, r) :: rest else (k, v) :: dsetIn rest key r

/-- One step of the de-duplication loop: keep the stored record unless
the new one is a winner displacing a stored nominee (or the key is new). -/
def dedupStep (m : List ((Int × String × String) × Record)) (r : Record) :
    List ((Int × String × String) × Record) :=
  match dlookup m (tripleKey r) with
  | none => m ++ [(tripleKey r, r)]
  | some cur =>
    if r.is_winner && !cur.is_winner then dsetIn m (tripleKey r) r else m

/-- The de-duplication pass at the end of
`enhanced_parse_winners_nominees`: fold the rows through the dict and
return the values in insertion order. -/
def dedupRows (rows : List Record) : List Record :=
  (rows.foldl dedupStep []).map Prod.snd

/-- `enhanced_parse_winners_nominees`. -/
def enhancedParseWinnersNominees (lines : List String) (year : Int)
    (url : String) : List Record :=
  dedupRows (parseRows lines year url)

/-! ## Supporting lemmas -/

theorem lookupTable_mem : ∀ (t : List (String × String)) (c v : String),
    lookupTable t c = some v → (c, v) ∈ t := by
  intro t
  induction t with
  | nil => intro c v h; simp [lookupTable] at h
  | cons p rest ih =>
    intro c v h
    obtain ⟨k, w⟩ := p
    by_cases hc : c = k
    · subst hc
      simp [lookupTable] at h
      simp [h]
    · simp [lookupTable, hc] at h
      exact List.mem_cons_of_mem _ (ih c v h)

theorem lookupTable_values_fixed :
    ∀ p ∈ comprehensiveCategories,
      lookupTable comprehensiveCategories p.2 = some p.2 := by decide

/-! ## Claims -/

/-- C8: for every string and year, if the trimmed length is below 4 or
above 70 characters, `enhanced_looks_like_category_heading` returns
`False`. -/
theorem c8_length_gate (s : String) (year : Int)
    (h : (pyStrip s).length < 4 ∨ 70 < (pyStrip s).length) :
    enhancedLooksLikeCategoryHeading s year = false := by
  unfold enhancedLooksLikeCategoryHeading
  rcases h with h | h
  · simp
    intro h4
    exact absurd h4 (by omega)
  · simp
    intro _ h70
    exact absurd h70 (by omega)

theorem c8_length_gate_witness :
    enhancedLooksLikeCategoryHeading "abc" 0 = false :=
  c8_length_gate "abc" 0 (by decide)

/-- C10: the year argument of `normalize_category` has no influence on
the result, whichever two (optional) years are supplied. -/
theorem c10_year_irrelevant (c : String) (y1 y2 : Option Int) :
    normalizeCategory c y1 = normalizeCategory c y2 := rfl

/-- C6: every alias value of `COMPREHENSIVE_CATEGORIES` is a fixed point
of another lookup, and normalization is idempotent on every string. -/
theorem c6_normalize_idempotent :
    (∀ p ∈ comprehensiveCategories,
      normalizeCategory (normalizeCategory p.1 none) none =
        normalizeCategory p.1 none) ∧
    (∀ c : String,
      normalizeCategory (normalizeCategory c none) none =
        normalizeCategory c none) := by
  have key : ∀ c : String,
      normalizeCategory (normalizeCategory c none) none =
        normalizeCategory c none := by
    intro c
    unfold normalizeCategory
    cases h : lookupTable comprehensiveCategories c with
    | none => simp [h]
    | some v =>
      have hv := lookupTable_values_fixed (c, v) (lookupTable_mem _ _ _ h)
      simp [h, hv]
  exact ⟨fun p _ => key p.1, key⟩

theorem c6_normalize_idempotent_witness :
    normalizeCategory (normalizeCategory "Best Actor" none) none =
      normalizeCategory "Best Actor" none :=
  c6_normalize_idempotent.1 ("Best Actor", "Best Actor in a Leading Role")
    (by decide)

/-- The scenario D entry of the specification. -/
def songEntry : String :=
  "Music (Original Song) — Over the Rainbow — The Wizard of Oz"

/-- C2 counterexample: on the scenario D entry the part at index 1 is
the song `Over the Rainbow` (the category label occupies index 0), so
the extractor does not return `The Wizard of Oz`. -/
theorem c2_counterexample :
    enhancedExtractFilmOnly "Best Music (Original Song)" songEntry 1999 =
      "Over the Rainbow" ∧
    enhancedExtractFilmOnly "Best Music (Original Song)" songEntry 1999 ≠
      "The Wizard of Oz" := by decide

/-- C2 amended: at any MODERN-era year, on the scenario D entry the
original-song rule prefers the part at index 1, which is
`Over the Rainbow` (index 0 holds the category label, index 2 the film). -/
theorem c2_amended (year : Int) (h : year < 1929 ∨ 1934 < year) :
    enhancedExtractFilmOnly "Best Music (Original Song)" songEntry year =
      "Over the Rainbow" := by
  have he : isEarlyYearsFormat year = false := by
    unfold isEarlyYearsFormat
    rcases h with h | h <;> simp <;> omega
  unfold enhancedExtractFilmOnly
  rw [he]
  decide

theorem c2_amended_witness :
    enhancedExtractFilmOnly "Best Music (Original Song)" songEntry 1999 =
      "Over the Rainbow" :=
  c2_amended 1999 (by decide)

/-- C5: `get_categories_for_year` returns the non-empty snapshot of the
greatest defined era start year that is at most the query year, with
years before 1929 clamped to the 1929 era (so year 1900 yields the 1929
list). -/
theorem c5_era_lookup :
    (∀ y : Int, getCategoriesForYear y ≠ [] ∧
      ∃ e ∈ availableYears, getCategoriesForYear y = categorySnapshot e ∧
        ((e ≤ y ∧ ∀ e2 ∈ availableYears, e2 ≤ y → e2 ≤ e) ∨
          (y < 1929 ∧ e = 1929))) ∧
    getCategoriesForYear 1900 = getCategoriesForYear 1929 := by
  constructor
  · intro y
    rcases lt_or_le y 1929 with h0 | h0
    · have hg : getCategoriesForYear y = categorySnapshot 1929 := by
        simp [getCategoriesForYear, availableYears, closestYearGo,
          show ¬((1929:Int) ≤ y) from by omega]
      exact ⟨by rw [hg]; decide, 1929, by decide, hg, Or.inr ⟨h0, rfl⟩⟩
    rcases lt_or_le y 1930 with h1 | h1
    · have hg : getCategoriesForYear y = categorySnapshot 1929 := by
        simp [getCategoriesForYear, availableYears, closestYearGo, h0,
          show ¬((1930:Int) ≤ y) from by omega]
      refine ⟨by rw [hg]; decide, 1929, by decide, hg, Or.inl ⟨h0, ?_⟩⟩
      intro e2 he2 hle
      fin_cases he2 <;> omega
    rcases lt_or_le y 1934 with h2 | h2
    · have hg : getCategoriesForYear y = categorySnapshot 1930 := by
        simp [getCategoriesForYear, availableYears, closestYearGo, h0, h1,
          show ¬((1934:Int) ≤ y) from by omega]
      refine ⟨by rw [hg]; decide, 1930, by decide, hg, Or.inl ⟨h1, ?_⟩⟩
      intro e2 he2 hle
      fin_cases he2 <;> omega
    rcases lt_or_le y 1940 with h3 | h3
    · have hg : getCategoriesForYear y = categorySnapshot 1934 := by
        simp [getCategoriesForYear, availableYears, closestYearGo, h0, h1, h2,
          show ¬((1940:Int) ≤ y) from by omega]
      refine ⟨by rw [hg]; decide, 1934, by decide, hg, Or.inl ⟨h2, ?_⟩⟩
      intro e2 he2 hle
      fin_cases he2 <;> omega
    rcases lt_or_le y 1950 with h4 | h4
    · have hg : getCategoriesForYear y = categorySnapshot 1940 := by
        simp [getCategoriesForYear, availableYears, closestYearGo, h0, h1, h2,
          h3, show ¬((1950:Int) ≤ y) from by omega]
      refine ⟨by rw [hg]; decide, 1940, by decide, hg, Or.inl ⟨h3, ?_⟩⟩
      intro e2 he2 hle
      fin_cases he2 <;> omega
    rcases lt_or_le y 1970 with h5 | h5
    · have hg : getCategoriesForYear y = categorySnapshot 1950 := by
        simp [getCategoriesForYear, availableYears, closestYearGo, h0, h1, h2,
          h3, h4, show ¬((1970:Int) ≤ y) from by omega]
      refine ⟨by rw [hg]; decide, 1950, by decide, hg, Or.inl ⟨h4, ?_⟩⟩
      intro e2 he2 hle
      fin_cases he2 <;> omega
    rcases lt_or_le y 1990 with h6 | h6
    · have hg : getCategoriesForYear y = categorySnapshot 1970 := by
        simp [getCategoriesForYear, availableYears, closestYearGo, h0, h1, h2,
          h3, h4, h5, show ¬((1990:Int) ≤ y) from by omega]
      refine ⟨by rw [hg]; decide, 1970, by decide, hg, Or.inl ⟨h5, ?_⟩⟩
      intro e2 he2 hle
      fin_cases he2 <;> omega
    rcases lt_or_le y 2000 with h7 | h7
    · have hg : getCategoriesForYear y = categorySnapshot 1990 := by
        simp [getCategoriesForYear, availableYears, closestYearGo, h0, h1, h2,
          h3, h4, h5, h6, show ¬((2000:Int) ≤ y) from by omega]
      refine ⟨by rw [hg]; decide, 1990, by decide, hg, Or.inl ⟨h6, ?_⟩⟩
      intro e2 he2 hle
      fin_cases he2 <;> omega
    rcases lt_or_le y 2010 with h8 | h8
    · have hg : getCategoriesForYear y = categorySnapshot 2000 := by
        simp [getCategoriesForYear, availableYears, closestYearGo, h0, h1, h2,
          h3, h4, h5, h6, h7, show ¬((2010:Int) ≤ y) from by omega]
      refine ⟨by rw [hg]; decide, 2000, by decide, hg, Or.inl ⟨h7, ?_⟩⟩
      intro e2 he2 hle
      fin_cases he2 <;> omega
    rcases lt_or_le y 2020 with h9 | h9
    · have hg : getCategoriesForYear y = categorySnapshot 2010 := by
        simp [getCategoriesForYear, availableYears, closestYearGo, h0, h1, h2,
          h3, h4, h5, h6, h7, h8, show ¬((2020:Int) ≤ y) from by omega]
      refine ⟨by rw [hg]; decide, 2010, by decide, hg, Or.inl ⟨h8, ?_⟩⟩
      intro e2 he2 hle
      fin_cases he2 <;> omega
    · have hg : getCategoriesForYear y = categorySnapshot 2020 := by
        simp [getCategoriesForYear, availableYears, closestYearGo, h0, h1, h2,
          h3, h4, h5, h6, h7, h8, h9]
      refine ⟨by rw [hg]; decide, 2020, by decide, hg, Or.inl ⟨h9, ?_⟩⟩
      intro e2 he2 hle
      fin_cases he2 <;> omega
  · decide

theorem c5_era_lookup_witness :
    getCategoriesForYear 1935 ≠ [] ∧
    ∃ e ∈ availableYears, getCategoriesForYear 1935 = categorySnapshot e ∧
      ((e ≤ (1935:Int) ∧ ∀ e2 ∈ availableYears, e2 ≤ (1935:Int) → e2 ≤ e) ∨
        ((1935:Int) < 1929 ∧ e = 1929)) :=
  c5_era_lookup.1 1935

theorem extractWnGo_section_modern (year : Int)
    (hy : isEarlyYearsFormat year = false) :
    ∀ (cs : List String) (t : String) (rest : List String),
      (∀ c ∈ cs, wnStop (norm c) = false) → wnStop (norm t) = true →
      extractWnGo year true (cs ++ t :: rest) = cs.map norm := by
  intro cs
  induction cs with
  | nil =>
    intro t rest _ ht
    simp [extractWnGo, hy, ht]
  | cons c cs ih =>
    intro t rest hcs ht
    have hc : wnStop (norm c) = false := hcs c (List.mem_cons_self c cs)
    simp only [List.cons_append, extractWnGo, hy, hc, Bool.false_eq_true,
      if_false, List.map_cons]
    exact congrArg (List.cons (norm c))
      (ih t rest (fun x hx => hcs x (List.mem_cons_of_mem c hx)) ht)

theorem extractWnGo_no_marker (year : Int) :
    ∀ lines : List String, (∀ l ∈ lines, wnStart (norm l) = false) →
      extractWnGo year false lines = [] := by
  intro lines
  induction lines with
  | nil => intro _; simp [extractWnGo]
  | cons l rest ih =>
    intro h
    have hl : wnStart (norm l) = false := h l (List.mem_cons_self l rest)
    simp only [extractWnGo, hl, Bool.false_eq_true, if_false]
    exact ih (fun x hx => h x (List.mem_cons_of_mem l hx))

/-- C7: at a MODERN-era year, an input consisting of a
`WINNERS & NOMINEES` start line, content lines that never satisfy the
stop condition, and a terminating `0-9`/`ALL` line, is extracted to
exactly the normalized content lines (neither marker line included);
and with no start line the output is empty. -/
theorem c7_line_extractor (year : Int) (hy : year < 1929 ∨ 1934 < year) :
    (∀ (m : String) (cs : List String) (t : String),
      wnStart (norm m) = true →
      (∀ c ∈ cs, wnStop (norm c) = false) → wnStop (norm t) = true →
      enhancedExtractWnLines (m :: (cs ++ [t])) year = cs.map norm) ∧
    (∀ lines : List String, (∀ l ∈ lines, wnStart (norm l) = false) →
      enhancedExtractWnLines lines year = []) := by
  have he : isEarlyYearsFormat year = false := by
    unfold isEarlyYearsFormat
    rcases hy with h | h <;> simp <;> omega
  constructor
  · intro m cs t hm hcs ht
    unfold enhancedExtractWnLines
    simp only [extractWnGo, hm, if_true]
    exact extractWnGo_section_modern year he cs t [] hcs ht
  · intro lines h
    exact extractWnGo_no_marker year lines h

theorem c7_line_extractor_witness :
    enhancedExtractWnLines ["Winners & Nominees", "A Film", "0-9 ALL"] 1999 =
      ["A Film"].map norm ∧
    enhancedExtractWnLines ["no markers here"] 1999 = [] :=
  ⟨(c7_line_extractor 1999 (by decide)).1 "Winners & Nominees" ["A Film"]
      "0-9 ALL" (by decide) (by decide) (by decide),
    (c7_line_extractor 1999 (by decide)).2 ["no markers here"] (by decide)⟩

theorem consumeGo_length_le (lines : List String) (year : Int) (maxL : Nat) :
    ∀ (fuel : Nat) (parts : List String) (i : Nat), parts.length < maxL →
      (consumeGo lines year maxL fuel parts i).1.length ≤ maxL := by
  intro fuel
  induction fuel with
  | zero =>
    intro parts i h
    simpa [consumeGo] using Nat.le_of_lt h
  | succ fuel ih =>
    intro parts i h
    simp only [consumeGo]
    split_ifs with h1 h2 h3 h4 h5 h6
    · exact ih parts (i + 1) h
    · exact ih parts (i + 1) h
    · simpa using Nat.le_of_lt h
    · simpa using Nat.le_of_lt h
    · simp only [List.length_append, List.length_cons, List.length_nil]
      omega
    · refine ih (parts ++ [norm (lines.getD i "")]) (i + 1) ?_
      simp only [List.length_append, List.length_cons, List.length_nil] at h6 ⊢
      omega
    · simpa using Nat.le_of_lt h

theorem c9_entry_cap (lines : List String) (startIdx : Nat) (year : Int)
    (maxL : Nat) (h : 1 ≤ maxL) :
    (consumeGo lines year maxL lines.length [] (startIdx + 1)).1.length ≤ maxL ∧
    enhancedConsumeEntry lines startIdx year maxL =
      (joinEntry (consumeGo lines year maxL lines.length [] (startIdx + 1)).1,
        (consumeGo lines year maxL lines.length [] (startIdx + 1)).2) :=
  ⟨consumeGo_length_le lines year maxL lines.length [] (startIdx + 1)
      (by simpa using h), rfl⟩

theorem c9_entry_cap_witness :
    (consumeGo ["winner", "A", "B", "C"] 1999 2 4 [] 1).1.length ≤ 2 ∧
    enhancedConsumeEntry ["winner", "A", "B", "C"] 0 1999 2 =
      (joinEntry (consumeGo ["winner", "A", "B", "C"] 1999 2 4 [] 1).1,
        (consumeGo ["winner", "A", "B", "C"] 1999 2 4 [] 1).2) :=
  c9_entry_cap ["winner", "A", "B", "C"] 0 1999 2 (by decide)

theorem isEmpty_map_nat (f : Nat → String) (l : List Nat) :
    (l.map f).isEmpty = l.isEmpty := by
  cases l <;> rfl

theorem consumeIdxGo_agree (lines : List String) (year : Int) (maxL : Nat) :
    ∀ (fuel : Nat) (idxs : List Nat) (i : Nat),
      consumeGo lines year maxL fuel (idxs.map (fun j => norm (lines.getD j ""))) i =
        ((consumeIdxGo lines year maxL fuel idxs i).1.map
            (fun j => norm (lines.getD j "")),
          (consumeIdxGo lines year maxL fuel idxs i).2) := by
  intro fuel
  induction fuel with
  | zero => intro idxs i; rfl
  | succ fuel ih =>
    intro idxs i
    simp only [consumeGo, consumeIdxGo, isEmpty_map_nat, List.length_append,
      List.length_map, List.length_cons, List.length_nil]
    split
    · split
      · exact ih idxs (i + 1)
      · split
        · split
          · exact ih idxs (i + 1)
          · rfl
        · split
          · rfl
          · split
            · simp [List.map_append]
            · simpa [List.map_append] using ih (idxs ++ [i]) (i + 1)
    · rfl

theorem consumeIdxGo_bounds (lines : List String) (year : Int) (maxL : Nat) :
    ∀ (fuel : Nat) (idxs : List Nat) (i lo : Nat),
      (∀ j ∈ idxs, lo ≤ j ∧ j < i) → lo ≤ i → idxs.length < maxL →
      (∀ j ∈ (consumeIdxGo lines year maxL fuel idxs i).1,
          lo ≤ j ∧ j ≤ (consumeIdxGo lines year maxL fuel idxs i).2) ∧
      (∀ j ∈ (consumeIdxGo lines year maxL fuel idxs i).1,
          j = (consumeIdxGo lines year maxL fuel idxs i).2 →
          (consumeIdxGo lines year maxL fuel idxs i).1.length = maxL) := by
  intro fuel
  induction fuel with
  | zero =>
    intro idxs i lo hinv hlo hlen
    simp only [consumeIdxGo]
    exact ⟨fun j hj => ⟨(hinv j hj).1, Nat.le_of_lt (hinv j hj).2⟩,
      fun j hj hji => absurd hji (Nat.ne_of_lt (hinv j hj).2)⟩
  | succ fuel ih =>
    intro idxs i lo hinv hlo hlen
    simp only [consumeIdxGo]
    split_ifs with h1 h2 h3 h4 h5 h6
    · exact ih idxs (i + 1) lo
        (fun j hj => ⟨(hinv j hj).1, Nat.lt_succ_of_lt (hinv j hj).2⟩)
        (Nat.le_succ_of_le hlo) hlen
    · exact ih idxs (i + 1) lo
        (fun j hj => ⟨(hinv j hj).1, Nat.lt_succ_of_lt (hinv j hj).2⟩)
        (Nat.le_succ_of_le hlo) hlen
    · exact ⟨fun j hj => ⟨(hinv j hj).1, Nat.le_of_lt (hinv j hj).2⟩,
        fun j hj hji => absurd hji (Nat.ne_of_lt (hinv j hj).2)⟩
    · exact ⟨fun j hj => ⟨(hinv j hj).1, Nat.le_of_lt (hinv j hj).2⟩,
        fun j hj hji => absurd hji (Nat.ne_of_lt (hinv j hj).2)⟩
    · constructor
      · intro j hj
        rcases List.mem_append.mp hj with hj | hj
        · exact ⟨(hinv j hj).1, Nat.le_of_lt (hinv j hj).2⟩
        · simp only [List.mem_cons, List.not_mem_nil, or_false] at hj
          omega
      · intro j hj hji
        simp only [List.length_append, List.length_cons, List.length_nil] at h6 ⊢
        omega
    · refine ih (idxs ++ [i]) (i + 1) lo ?_ (Nat.le_succ_of_le hlo) ?_
      · intro j hj
        rcases List.mem_append.mp hj with hj | hj
        · exact ⟨(hinv j hj).1, Nat.lt_succ_of_lt (hinv j hj).2⟩
        · simp only [List.mem_cons, List.not_mem_nil, or_false] at hj
          omega
      · simp only [List.length_append, List.length_cons, List.length_nil] at h6 ⊢
        omega
    · exact ⟨fun j hj => ⟨(hinv j hj).1, Nat.le_of_lt (hinv j hj).2⟩,
        fun j hj hji => absurd hji (Nat.ne_of_lt (hinv j hj).2)⟩

/-- C4 counterexample: with marker index 0, `max_lines = 2` and lines
`["winner", "A", "B"]`, the loop appends the line at index 2 and then
breaks on the cap without advancing, so the returned index 2 points at a
line that WAS included in the entry. -/
theorem c4_counterexample :
    enhancedConsumeEntry ["winner", "A", "B"] 0 1999 2 =
      (⟨['A', ' ', '—', ' ', 'B']⟩, 2) ∧
    consumeIdxGo ["winner", "A", "B"] 1999 2 3 [] 1 = ([1, 2], 2) ∧
    ¬ (∀ j ∈ (consumeIdxGo ["winner", "A", "B"] 1999 2 3 [] 1).1,
        j < (consumeIdxGo ["winner", "A", "B"] 1999 2 3 [] 1).2) := by
  decide

/-- C4 amended: the returned entry is the join of the lines at the
collected indices, all of which lie strictly after `start_idx` and at or
before the returned index; a collected index can equal the returned
index only when the `max_lines` cap was reached (in every other case the
returned index is the next unconsumed line). -/
theorem c4_amended (lines : List String) (startIdx : Nat) (year : Int)
    (maxL : Nat) (hs : startIdx < lines.length) (hm : 1 ≤ maxL) :
    enhancedConsumeEntry lines startIdx year maxL =
      (joinEntry ((consumeIdxGo lines year maxL lines.length [] (startIdx + 1)).1.map
          (fun j => norm (lines.getD j ""))),
        (consumeIdxGo lines year maxL lines.length [] (startIdx + 1)).2) ∧
    (∀ j ∈ (consumeIdxGo lines year maxL lines.length [] (startIdx + 1)).1,
        startIdx < j ∧
          j ≤ (consumeIdxGo lines year maxL lines.length [] (startIdx + 1)).2) ∧
    (∀ j ∈ (consumeIdxGo lines year maxL lines.length [] (startIdx + 1)).1,
        j = (consumeIdxGo lines year maxL lines.length [] (startIdx + 1)).2 →
        (consumeIdxGo lines year maxL lines.length [] (startIdx + 1)).1.length =
          maxL) := by
  have hagree := consumeIdxGo_agree lines year maxL lines.length [] (startIdx + 1)
  have hbounds := consumeIdxGo_bounds lines year maxL lines.length []
    (startIdx + 1) (startIdx + 1) (by simp) (Nat.le_refl _) (by simpa using hm)
  refine ⟨?_, fun j hj => ⟨(hbounds.1 j hj).1, (hbounds.1 j hj).2⟩, hbounds.2⟩
  unfold enhancedConsumeEntry
  simp only [List.map_nil] at hagree
  rw [hagree]

theorem c4_amended_witness :
    enhancedConsumeEntry ["winner", "A", "B"] 0 1999 2 =
      (joinEntry ((consumeIdxGo ["winner", "A", "B"] 1999 2 3 [] 1).1.map
          (fun j => norm ((["winner", "A", "B"] : List String).getD j ""))),
        (consumeIdxGo ["winner", "A", "B"] 1999 2 3 [] 1).2) ∧
    (∀ j ∈ (consumeIdxGo ["winner", "A", "B"] 1999 2 3 [] 1).1,
        0 < j ∧ j ≤ (consumeIdxGo ["winner", "A", "B"] 1999 2 3 [] 1).2) ∧
    (∀ j ∈ (consumeIdxGo ["winner", "A", "B"] 1999 2 3 [] 1).1,
        j = (consumeIdxGo ["winner", "A", "B"] 1999 2 3 [] 1).2 →
        (consumeIdxGo ["winner", "A", "B"] 1999 2 3 [] 1).1.length = 2) :=
  c4_amended ["winner", "A", "B"] 0 1999 2 (by decide) (by decide)

theorem find?_eq_of_first_true {α : Type} (p : α → Bool) :
    ∀ (l : List α) (k : Nat) (hk : k < l.length),
      (∀ (m : Nat) (hm : m < l.length), m < k → p (l.get ⟨m, hm⟩) = false) →
      p (l.get ⟨k, hk⟩) = true →
      l.find? p = some (l.get ⟨k, hk⟩) := by
  intro l
  induction l with
  | nil => intro k hk; simp at hk
  | cons a t ih =>
    intro k hk hbefore hat
    cases k with
    | zero =>
      simp only [List.get] at hat
      simp [List.find?_cons_of_pos, hat]
    | succ k =>
      have ha : p a = false := by
        have := hbefore 0 (by simp) (Nat.succ_pos k)
        simpa using this
      rw [List.find?_cons_of_neg _ (by simp [ha])]
      have hk' : k < t.length := Nat.lt_of_succ_lt_succ hk
      have := ih k hk'
        (fun m hm hmk => hbefore (m + 1) (Nat.succ_lt_succ hm)
          (Nat.succ_lt_succ hmk)) hat
      simpa using this

/-- C3 counterexample: the lookback loop
`range(i - 1, max(-1, i - 15), -1)` stops one line short of 15.  With a
heading swallowed into an earlier entry at index 1 and a marker at index
16 = 1 + 15, the line at index `i - 15` classifies as a heading, yet the
lookback finds nothing and the driver emits `Unknown Category` records. -/
def cexLines : List String :=
  ["Winner", "Best Director"] ++ List.replicate 14 "aaaa" ++
    ["Nominees", "Moonlight"]

theorem c3_counterexample :
    enhancedLooksLikeCategoryHeading (norm (cexLines.getD 1 "")) 2020 = true ∧
    lookbackCategory cexLines 16 2020 = none ∧
    enhancedParseWinnersNominees cexLines 2020 "u" =
      [Record.mk 2020 "Unknown Category" "Best Director" true "u",
        Record.mk 2020 "Unknown Category" "Moonlight" false "u"] := by
  decide

/-- C3 amended: when a marker at index `i` is reached with no current
category, the driver scans the 14 preceding lines, indices `i - 1` down
to `i - 14` (bounded by the start of the list), and takes the first line
of that backward scan that classifies as a category heading. -/
theorem c3_amended (lines : List String) (year : Int) (i j : Nat)
    (hj : j < i) (hwin : i ≤ j + 14)
    (hhead : enhancedLooksLikeCategoryHeading (norm (lines.getD j "")) year = true)
    (hnone : ∀ jp : Nat, j < jp → jp < i →
      enhancedLooksLikeCategoryHeading (norm (lines.getD jp "")) year = false) :
    lookbackCategory lines i year = some (norm (lines.getD j "")) := by
  unfold lookbackCategory
  have hlen : ((List.range (min i 14)).map
      (fun d => norm (lines.getD (i - 1 - d) ""))).length = min i 14 := by
    simp
  have hk : i - 1 - j < ((List.range (min i 14)).map
      (fun d => norm (lines.getD (i - 1 - d) ""))).length := by
    rw [hlen]
    exact lt_min_iff.mpr ⟨by omega, by omega⟩
  have hget : ∀ (m : Nat) (hm : m < ((List.range (min i 14)).map
      (fun d => norm (lines.getD (i - 1 - d) ""))).length),
      ((List.range (min i 14)).map
        (fun d => norm (lines.getD (i - 1 - d) ""))).get ⟨m, hm⟩ =
        norm (lines.getD (i - 1 - m) "") := by
    intro m hm
    simp
  rw [find?_eq_of_first_true _ _ (i - 1 - j) hk ?_ ?_]
  · have hidx : i - 1 - (i - 1 - j) = j := by omega
    rw [hget, hidx]
  · intro m hm hmk
    rw [hget]
    rw [hlen] at hm
    obtain ⟨hmi, hm14⟩ := lt_min_iff.mp hm
    exact hnone (i - 1 - m) (by omega) (by omega)
  · rw [hget]
    have : i - 1 - (i - 1 - j) = j := by omega
    rw [this]
    exact hhead

theorem c3_amended_witness :
    lookbackCategory ["Best Director", "Winner"] 1 2020 =
      some (norm ((["Best Director", "Winner"] : List String).getD 0 "")) :=
  c3_amended ["Best Director", "Winner"] 2020 1 0 (by decide) (by decide)
    (by decide) (fun jp h1 h2 => absurd h2 (by omega))

theorem dlookup_append_of_none
    (m : List ((Int × String × String) × Record)) (k : Int × String × String)
    (r : Record) (h : dlookup m k = none) :
    dlookup (m ++ [(k, r)]) k = some r := by
  induction m with
  | nil => simp [dlookup]
  | cons p rest ih =>
    obtain ⟨k1, v1⟩ := p
    by_cases hk : k = k1
    · simp [dlookup, hk] at h
    · simp only [dlookup, if_neg hk] at h ⊢
      exact ih h

theorem dlookup_append_other
    (m : List ((Int × String × String) × Record)) (k k2 : Int × String × String)
    (r : Record) (h : k2 ≠ k) :
    dlookup (m ++ [(k, r)]) k2 = dlookup m k2 := by
  induction m with
  | nil => simp [dlookup, h]
  | cons p rest ih =>
    obtain ⟨k1, v1⟩ := p
    by_cases hk : k2 = k1
    · simp [dlookup, hk]
    · simp only [List.cons_append, dlookup, if_neg hk]
      exact ih

theorem dlookup_dsetIn_self
    (m : List ((Int × String × String) × Record)) (k : Int × String × String)
    (r cur : Record) (h : dlookup m k = some cur) :
    dlookup (dsetIn m k r) k = some r := by
  induction m with
  | nil => simp [dlookup] at h
  | cons p rest ih =>
    obtain ⟨k1, v1⟩ := p
    by_cases hk : k = k1
    · simp [dsetIn, hk, dlookup]
    · simp only [dlookup, if_neg hk] at h
      simp only [dsetIn, if_neg hk, dlookup]
      exact ih h

theorem dlookup_dsetIn_other
    (m : List ((Int × String × String) × Record)) (k k2 : Int × String × String)
    (r : Record) (h : k2 ≠ k) :
    dlookup (dsetIn m k r) k2 = dlookup m k2 := by
  induction m with
  | nil => simp [dsetIn, dlookup, h]
  | cons p rest ih =>
    obtain ⟨k1, v1⟩ := p
    by_cases hk1 : k = k1
    · subst hk1
      simp [dsetIn, dlookup, if_neg h]
    · by_cases hk2 : k2 = k1
      · simp [dsetIn, if_neg hk1, dlookup, hk2]
      · simp only [dsetIn, if_neg hk1, dlookup, if_neg hk2]
        exact ih

theorem dedupStep_of_none (m : List ((Int × String × String) × Record))
    (r : Record) (hl : dlookup m (tripleKey r) = none) :
    dedupStep m r = m ++ [(tripleKey r, r)] := by
  unfold dedupStep
  rw [hl]

theorem dedupStep_of_some (m : List ((Int × String × String) × Record))
    (r cur : Record) (hl : dlookup m (tripleKey r) = some cur) :
    dedupStep m r =
      if r.is_winner && !cur.is_winner then dsetIn m (tripleKey r) r else m := by
  unfold dedupStep
  rw [hl]

theorem dlookup_dedupStep_other (m : List ((Int × String × String) × Record))
    (r : Record) (k2 : Int × String × String) (h : k2 ≠ tripleKey r) :
    dlookup (dedupStep m r) k2 = dlookup m k2 := by
  cases hl : dlookup m (tripleKey r) with
  | none =>
    rw [dedupStep_of_none m r hl]
    exact dlookup_append_other m (tripleKey r) k2 r h
  | some cur =>
    rw [dedupStep_of_some m r cur hl]
    cases hw : (r.is_winner && !cur.is_winner) with
    | false => simp [hw]
    | true =>
      simp only [hw, if_true]
      exact dlookup_dsetIn_other m (tripleKey r) k2 r h

theorem winner_persists (k : Int × String × String) :
    ∀ (rows : List Record) (m : List ((Int × String × String) × Record))
      (r0 : Record), dlookup m k = some r0 → r0.is_winner = true →
      ∃ r1, dlookup (rows.foldl dedupStep m) k = some r1 ∧ r1.is_winner = true := by
  intro rows
  induction rows with
  | nil => intro m r0 h hw; exact ⟨r0, h, hw⟩
  | cons r rows ih =>
    intro m r0 h hw
    simp only [List.foldl_cons]
    by_cases hk : k = tripleKey r
    · subst hk
      rw [dedupStep_of_some m r r0 h]
      have hcond : (r.is_winner && !r0.is_winner) = false := by
        rw [hw]
        simp
      rw [hcond]
      simp only [Bool.false_eq_true, if_false]
      exact ih m r0 h hw
    · have hstep := dlookup_dedupStep_other m r k hk
      exact ih (dedupStep m r) r0 (hstep.trans h) hw

theorem winner_introduced (k : Int × String × String) :
    ∀ (rows : List Record) (m : List ((Int × String × String) × Record)),
      (∃ r ∈ rows, tripleKey r = k ∧ r.is_winner = true) →
      ∃ r1, dlookup (rows.foldl dedupStep m) k = some r1 ∧ r1.is_winner = true := by
  intro rows
  induction rows with
  | nil => intro m h; simp at h
  | cons r rows ih =>
    intro m h
    simp only [List.foldl_cons]
    obtain ⟨rw, hrw, hkey, hwin⟩ := h
    rcases List.mem_cons.mp hrw with heq | hmem
    · subst heq
      subst hkey
      cases hl : dlookup m (tripleKey rw) with
      | none =>
        rw [dedupStep_of_none m rw hl]
        exact winner_persists (tripleKey rw) rows _ rw
          (dlookup_append_of_none m (tripleKey rw) rw hl) hwin
      | some cur =>
        rw [dedupStep_of_some m rw cur hl]
        cases hcw : cur.is_winner with
        | true =>
          rw [if_neg (by simp : ¬((rw.is_winner && !true) = true))]
          exact winner_persists (tripleKey rw) rows m cur hl hcw
        | false =>
          rw [if_pos (by rw [hwin]; rfl : (rw.is_winner && !false) = true)]
          exact winner_persists (tripleKey rw) rows _ rw
            (dlookup_dsetIn_self m (tripleKey rw) rw cur hl) hwin
    · exact ih (dedupStep m r) ⟨rw, hmem, hkey, hwin⟩

/-- The invariant of the de-duplication dict: keys are pairwise distinct
and every stored pair's key is the triple key of its record. -/
def goodMap (m : List ((Int × String × String) × Record)) : Prop :=
  (m.map Prod.fst).Nodup ∧ ∀ p ∈ m, tripleKey p.2 = p.1

theorem not_mem_of_dlookup_eq_none
    (m : List ((Int × String × String) × Record)) (k : Int × String × String)
    (h : dlookup m k = none) : k ∉ m.map Prod.fst := by
  induction m with
  | nil => simp
  | cons p rest ih =>
    obtain ⟨k1, v1⟩ := p
    by_cases hk : k = k1
    · subst hk
      simp [dlookup] at h
    · simp only [dlookup, if_neg hk] at h
      simp only [List.map_cons, List.mem_cons]
      push_neg
      exact ⟨hk, ih h⟩

theorem mem_of_dlookup_eq_some
    (m : List ((Int × String × String) × Record)) (k : Int × String × String)
    (r : Record) (h : dlookup m k = some r) : (k, r) ∈ m := by
  induction m with
  | nil => simp [dlookup] at h
  | cons p rest ih =>
    obtain ⟨k1, v1⟩ := p
    by_cases hk : k = k1
    · subst hk
      simp [dlookup] at h
      simp [h]
    · simp only [dlookup, if_neg hk] at h
      exact List.mem_cons_of_mem _ (ih h)

theorem dsetIn_keys_of_some
    (m : List ((Int × String × String) × Record)) (k : Int × String × String)
    (r cur : Record) (h : dlookup m k = some cur) :
    (dsetIn m k r).map Prod.fst = m.map Prod.fst := by
  induction m with
  | nil => simp [dlookup] at h
  | cons p rest ih =>
    obtain ⟨k1, v1⟩ := p
    by_cases hk : k = k1
    · simp [dsetIn, hk]
    · simp only [dlookup, if_neg hk] at h
      simp only [dsetIn, if_neg hk, List.map_cons]
      rw [ih h]

theorem dsetIn_forall
    (m : List ((Int × String × String) × Record)) (k : Int × String × String)
    (r : Record) (P : (Int × String × String) × Record → Prop)
    (hm : ∀ p ∈ m, P p) (hr : P (k, r)) : ∀ p ∈ dsetIn m k r, P p := by
  induction m with
  | nil =>
    intro p hp
    simp only [dsetIn, List.mem_cons, List.not_mem_nil, or_false] at hp
    subst hp
    exact hr
  | cons q rest ih =>
    obtain ⟨k1, v1⟩ := q
    by_cases hk : k = k1
    · subst hk
      simp only [dsetIn, if_pos rfl]
      intro p hp
      rcases List.mem_cons.mp hp with hp | hp
      · subst hp
        exact hr
      · exact hm p (List.mem_cons_of_mem _ hp)
    · simp only [dsetIn, if_neg hk]
      intro p hp
      rcases List.mem_cons.mp hp with hp | hp
      · subst hp
        exact hm _ (List.mem_cons_self _ _)
      · exact ih (fun q hq => hm q (List.mem_cons_of_mem _ hq)) p hp

theorem goodMap_dedupStep (m : List ((Int × String × String) × Record))
    (r : Record) (h : goodMap m) : goodMap (dedupStep m r) := by
  obtain ⟨hnd, hco⟩ := h
  cases hl : dlookup m (tripleKey r) with
  | none =>
    rw [dedupStep_of_none m r hl]
    constructor
    · rw [List.map_append]
      simp only [List.map_cons, List.map_nil]
      refine List.Nodup.append hnd (List.nodup_singleton _) ?_
      intro a ha hb
      simp only [List.mem_cons, List.not_mem_nil, or_false] at hb
      subst hb
      exact not_mem_of_dlookup_eq_none m _ hl ha
    · intro p hp
      rcases List.mem_append.mp hp with hp | hp
      · exact hco p hp
      · simp only [List.mem_cons, List.not_mem_nil, or_false] at hp
        subst hp
        rfl
  | some cur =>
    rw [dedupStep_of_some m r cur hl]
    cases hw : (r.is_winner && !cur.is_winner) with
    | false =>
      simp only [Bool.false_eq_true, if_false]
      exact ⟨hnd, hco⟩
    | true =>
      simp only [if_true]
      constructor
      · rw [dsetIn_keys_of_some m _ r cur hl]
        exact hnd
      · exact dsetIn_forall m _ r _ hco rfl

theorem goodMap_foldl (rows : List Record) :
    ∀ m, goodMap m → goodMap (rows.foldl dedupStep m) := by
  induction rows with
  | nil => intro m h; exact h
  | cons r rows ih =>
    intro m h
    exact ih (dedupStep m r) (goodMap_dedupStep m r h)

theorem dlookup_of_mem_nodup
    (m : List ((Int × String × String) × Record)) (k : Int × String × String)
    (r : Record) (hnd : (m.map Prod.fst).Nodup) (hm : (k, r) ∈ m) :
    dlookup m k = some r := by
  induction m with
  | nil => simp at hm
  | cons p rest ih =>
    obtain ⟨k1, v1⟩ := p
    simp only [List.map_cons, List.nodup_cons] at hnd
    rcases List.mem_cons.mp hm with hp | hp
    · rw [Prod.mk.injEq] at hp
      obtain ⟨hk, hv⟩ := hp
      subst hk
      subst hv
      simp [dlookup]
    · by_cases hk : k = k1
      · subst hk
        exfalso
        exact hnd.1 (List.mem_map.mpr ⟨(k, r), hp, rfl⟩)
      · simp only [dlookup, if_neg hk]
        exact ih hnd.2 hp

/-- C1: the de-duplicated output of `enhanced_parse_winners_nominees`
has at most one record per `(ceremony_year, category, film)` triple, and
whenever the scan produced both a winner and a nominee record for the
same triple, the retained record is the winner. -/
theorem c1_dedup_winner_preference (lines : List String) (year : Int)
    (url : String) :
    ((enhancedParseWinnersNominees lines year url).map tripleKey).Nodup ∧
    (∀ k : Int × String × String,
      (∃ r ∈ parseRows lines year url, tripleKey r = k ∧ r.is_winner = true) →
      (∃ r ∈ parseRows lines year url, tripleKey r = k ∧ r.is_winner = false) →
      ∀ q ∈ enhancedParseWinnersNominees lines year url,
        tripleKey q = k → q.is_winner = true) := by
  have hg : goodMap ((parseRows lines year url).foldl dedupStep []) :=
    goodMap_foldl (parseRows lines year url) [] ⟨List.nodup_nil, by simp⟩
  constructor
  · show ((((parseRows lines year url).foldl dedupStep []).map Prod.snd).map
      tripleKey).Nodup
    rw [List.map_map]
    have hcongr : List.map (tripleKey ∘ Prod.snd)
        ((parseRows lines year url).foldl dedupStep []) =
        List.map Prod.fst ((parseRows lines year url).foldl dedupStep []) :=
      List.map_congr_left (fun p hp => hg.2 p hp)
    rw [hcongr]
    exact hg.1
  · intro k hw _hn q hq hkey
    obtain ⟨r1, hr1, hr1w⟩ := winner_introduced k (parseRows lines year url) [] hw
    obtain ⟨p, hp, hpq⟩ := List.mem_map.mp hq
    have hkq : p.1 = k := by
      rw [← hg.2 p hp, hpq, hkey]
    have hpair : (k, q) ∈ (parseRows lines year url).foldl dedupStep [] := by
      rw [← hkq, ← hpq, Prod.mk.eta]
      exact hp
    have hlq : dlookup ((parseRows lines year url).foldl dedupStep []) k =
        some q := dlookup_of_mem_nodup _ k q hg.1 hpair
    rw [hlq] at hr1
    injection hr1 with hr1
    rw [hr1]
    exact hr1w

/-- A line list on which the scan produces both a winner and a nominee
record for the same `(year, category, film)` triple. -/
def c1Lines : List String :=
  ["Best Director", "Winner", "Film X", "Nominees", "Film X"]

theorem c1_dedup_winner_preference_witness :
    ((enhancedParseWinnersNominees c1Lines 2020 "u").map tripleKey).Nodup ∧
    (∀ q ∈ enhancedParseWinnersNominees c1Lines 2020 "u",
        tripleKey q = ((2020 : Int), "Best Director", "Film X") →
        q.is_winner = true) :=
  ⟨(c1_dedup_winner_preference c1Lines 2020 "u").1,
    (c1_dedup_winner_preference c1Lines 2020 "u").2
      ((2020 : Int), "Best Director", "Film X") (by decide) (by decide)⟩
